import Mathlib

/-!
Verification of the stencil build pipeline against its specification.

The development shallowly embeds the two source files of the repository:

* `src/compiler/build.ts` — the build orchestrator (`build`,
  `validateBuildConfig`) and the per-file transpile slice (`transpileFile`,
  `processIncludedStyles`, `getIncludedSassFiles`, the transformer
  configuration passed to `program.emit`).
* `src/client/registry-client-es5.ts` — the state-decorator metadata
  extraction (`getStateDecoratorMeta`).

External collaborators (the worker pool, the bundler, manifest generation,
the file-system sync helpers, the TypeScript emitter and the sass compiler)
are modelled as explicit parameters: the orchestration logic is translated
from the source and quantified over their results.  JavaScript-specific
primitives used by the source (string truthiness, `String.prototype.trim`,
`toLowerCase`-based comparison, `Array.prototype.sort` with a comparator,
`Object.assign`) are modelled explicitly below.  Asynchronous callbacks
(promise chains, the sass `render` callback) are modelled by executing each
continuation at its submission point, in submission order.
-/

namespace Stencil

/-- Lexicographic comparison of char lists by code point, modelling the
JavaScript `<` operator on strings (as used by the sort comparator in
`getStateDecoratorMeta`). -/
def charListLt : List Char → List Char → Bool
  | _, [] => false
  | [], _ :: _ => true
  | a :: as, b :: bs =>
    if a.toNat < b.toNat then true
    else if b.toNat < a.toNat then false
    else charListLt as bs

/-- Character list of a string after `toLowerCase`, the comparison key used
by the state-property sort comparator. -/
def lowerKey (s : String) : List Char := s.data.map Char.toLower

/-- Total preorder induced by the source's sort comparator
`(a, b) => a.toLowerCase() < b.toLowerCase() ? -1 : (... ? 1 : 0)`:
`a` may be placed before `b` exactly when the comparator does not order
`b` strictly before `a`. -/
def ciLe (a b : String) : Prop := charListLt (lowerKey b) (lowerKey a) = false

instance : DecidableRel ciLe := fun _ _ => inferInstanceAs (Decidable (_ = _))

/-- Leading- and trailing-whitespace removal on char lists, modelling
JavaScript `String.prototype.trim`. -/
def trimChars (l : List Char) : List Char :=
  ((l.dropWhile Char.isWhitespace).reverse.dropWhile Char.isWhitespace).reverse

/-- Model of JavaScript `String.prototype.trim`. -/
def jsTrim (s : String) : String := String.mk (trimChars s.data)

/-- Model of the JavaScript expression `v || dflt` for a possibly-absent
string `v`: the empty string is falsy. -/
def jsOrStr (v : Option String) (dflt : String) : String :=
  match v with
  | none => dflt
  | some s => if s = "" then dflt else s

/-- JavaScript truthiness of a possibly-absent string. -/
def jsTruthyStr : Option String → Bool
  | none => false
  | some s => if s = "" then false else true

/-! ## Data model of the build orchestrator (`src/compiler/build.ts`) -/

/-- Presence of the required platform capability hooks on `config.sys`
(each is an object in the source; only its JavaScript truthiness matters to
`validateBuildConfig`). -/
structure SysCaps where
  fs : Bool
  path : Bool
  sass : Bool
  rollup : Bool
  typescript : Bool
deriving DecidableEq

/-- Logger as seen by the build orchestrator: only its `level` is inspected
by the finalize step. -/
structure BuildLogger where
  level : String
deriving DecidableEq

/-- Build configuration (`BuildConfig` of the source).  Fields the source
tests for JavaScript truthiness or presence are `Option`s. -/
structure BuildConfig where
  srcDir : Option String
  sys : Option SysCaps
  logger : BuildLogger
  rootDir : String
  destDir : String
  bundles : Option (List String)
  collections : Option (List String)
  «namespace» : Option String
  isDevMode : Bool
  isWatch : Bool
  numWorkers : Nat
  writeCompiledToDisk : Bool
deriving DecidableEq

/-- Diagnostic record as created and logged by the build orchestrator. -/
structure Diagnostic where
  msg : String
  «type» : String
  stack : Option String
deriving DecidableEq

/-- A JavaScript error caught by the orchestrator's catch handler:
`msg` is `err.toString()` and `stack` is `err.stack` (absent for thrown
strings such as the ones thrown by `validateBuildConfig`). -/
structure JsErr where
  msg : String
  stack : Option String
deriving DecidableEq

/-- Manifests are produced and merged by external collaborators; the
orchestrator only passes them around, so their content is opaque here. -/
abbrev Manifest := List String

/-- Result shape returned by the external compile stage to the
orchestrator. -/
structure CompileStageResults where
  diagnostics : Option (List Diagnostic)
  filesToWrite : Option (List (String × String))
  manifest : Option Manifest

/-- Result shape returned by the external bundle stage to the
orchestrator. -/
structure BundleStageResults where
  diagnostics : Option (List Diagnostic)
  filesToWrite : Option (List (String × String))
  componentRegistry : List String

/-- Results (or rejections) of every external collaborator invoked by
`build`; the orchestrator is verified for all values of this record. -/
structure Externals where
  generateDependentManifests : Except JsErr (List Manifest)
  updateManifestUrls : Manifest → Manifest
  mergeManifests : List Manifest → Manifest
  compileProject : Except JsErr CompileStageResults
  bundleProject : Manifest → Except JsErr BundleStageResults
  generateProjectFiles : List (String × String) → Except JsErr (List (String × String))
  writeFiles : List (String × String) → Except JsErr Unit
  updateDirectories : List (String × String) → Except JsErr Unit

/-- Translation of `validateBuildConfig`: the guard chain throws a string
for the first missing required field, then defaults `bundles`,
`collections` and `namespace` by mutating the config (returned here as an
updated record). -/
def validateBuildConfig (c : BuildConfig) : Except String BuildConfig :=
  if jsTruthyStr c.srcDir = false then Except.error "config.srcDir required"
  else
    match c.sys with
    | none => Except.error "config.sys required"
    | some s =>
      if s.fs = false then Except.error "config.sys.fs required"
      else if s.path = false then Except.error "config.sys.path required"
      else if s.sass = false then Except.error "config.sys.sass required"
      else if s.rollup = false then Except.error "config.sys.rollup required"
      else if s.typescript = false then Except.error "config.sys.typescript required"
      else
        let ns1 := jsTrim (jsOrStr c.«namespace» "App")
        let ns2 := jsTrim (if ns1 = "" then "bundles" else ns1)
        Except.ok { c with
          bundles := some (c.bundles.getD []),
          collections := some (c.collections.getD []),
          «namespace» := some ns2 }

/-- One step of `Object.assign` semantics on the `filesToWrite` map: an
existing key is overwritten, a new key is appended. -/
def assignEntry (m : List (String × String)) (kv : String × String) : List (String × String) :=
  if m.any (fun e => e.1 = kv.1) then m.map (fun e => if e.1 = kv.1 then kv else e) else m ++ [kv]

/-- Model of `Object.assign(dst, src)` on the `filesToWrite` map. -/
def objectAssign (dst src : List (String × String)) : List (String × String) :=
  src.foldl assignEntry dst

/-- Everything the promise chain of `build` (validate through directory
sync) produced: which stages were invoked, the accumulated diagnostics and
files-to-write, the config after validation, and the error that short-cut
the chain, if any. -/
structure ChainOut where
  genDepManifestsCalled : Bool
  compileCalled : Bool
  bundleCalled : Bool
  generateProjectFilesCalled : Bool
  writeFilesCalled : Bool
  updateDirectoriesCalled : Bool
  diagnostics : List Diagnostic
  filesToWrite : List (String × String)
  cfgAfter : BuildConfig
  err : Option JsErr

/-- The staged promise chain of `build` (lines 30–87 of the source): each
rejection skips every later stage and is remembered in `err` for the catch
handler. -/
def runChain (cfg1 : BuildConfig) (ext : Externals) : ChainOut :=
  match validateBuildConfig cfg1 with
  | Except.error m =>
    { genDepManifestsCalled := false, compileCalled := false, bundleCalled := false,
      generateProjectFilesCalled := false, writeFilesCalled := false,
      updateDirectoriesCalled := false, diagnostics := [], filesToWrite := [],
      cfgAfter := cfg1, err := some { msg := m, stack := none } }
  | Except.ok cfg2 =>
    match ext.generateDependentManifests with
    | Except.error e =>
      { genDepManifestsCalled := true, compileCalled := false, bundleCalled := false,
        generateProjectFilesCalled := false, writeFilesCalled := false,
        updateDirectoriesCalled := false, diagnostics := [], filesToWrite := [],
        cfgAfter := cfg2, err := some e }
    | Except.ok dependentManifests =>
      match ext.compileProject with
      | Except.error e =>
        { genDepManifestsCalled := true, compileCalled := true, bundleCalled := false,
          generateProjectFilesCalled := false, writeFilesCalled := false,
          updateDirectoriesCalled := false, diagnostics := [], filesToWrite := [],
          cfgAfter := cfg2, err := some e }
      | Except.ok compileResults =>
        let diags1 := compileResults.diagnostics.getD []
        let ftw1 := objectAssign [] (compileResults.filesToWrite.getD [])
        let localManifest := ext.updateManifestUrls (compileResults.manifest.getD [])
        let manifest := ext.mergeManifests ([localManifest] ++ dependentManifests)
        match ext.bundleProject manifest with
        | Except.error e =>
          { genDepManifestsCalled := true, compileCalled := true, bundleCalled := true,
            generateProjectFilesCalled := false, writeFilesCalled := false,
            updateDirectoriesCalled := false, diagnostics := diags1, filesToWrite := ftw1,
            cfgAfter := cfg2, err := some e }
        | Except.ok bundleResults =>
          let diags2 := diags1 ++ bundleResults.diagnostics.getD []
          let ftw2 := objectAssign ftw1 (bundleResults.filesToWrite.getD [])
          match ext.generateProjectFiles ftw2 with
          | Except.error e =>
            { genDepManifestsCalled := true, compileCalled := true, bundleCalled := true,
              generateProjectFilesCalled := true, writeFilesCalled := false,
              updateDirectoriesCalled := false, diagnostics := diags2, filesToWrite := ftw2,
              cfgAfter := cfg2, err := some e }
          | Except.ok ftw3 =>
            if cfg2.isDevMode then
              { genDepManifestsCalled := true, compileCalled := true, bundleCalled := true,
                generateProjectFilesCalled := true, writeFilesCalled := true,
                updateDirectoriesCalled := false, diagnostics := diags2, filesToWrite := ftw3,
                cfgAfter := cfg2,
                err := match ext.writeFiles ftw3 with
                  | Except.error e => some e
                  | Except.ok _ => none }
            else
              { genDepManifestsCalled := true, compileCalled := true, bundleCalled := true,
                generateProjectFilesCalled := true, writeFilesCalled := false,
                updateDirectoriesCalled := true, diagnostics := diags2, filesToWrite := ftw3,
                cfgAfter := cfg2,
                err := match ext.updateDirectories ftw3 with
                  | Except.error e => some e
                  | Except.ok _ => none }

/-- The finalize step's logging rule for one diagnostic: an error
diagnostic carrying a stack is logged through `logger.error(d.stack)` when
the logger level is `debug`; every other diagnostic goes through
`logger[d.type](d.msg)`. -/
def logDiagnostic (level : String) (d : Diagnostic) : String × String :=
  match d.stack with
  | some s => if d.«type» = "error" ∧ level = "debug" then ("error", s) else (d.«type», d.msg)
  | none => (d.«type», d.msg)

/-- Observable trace of one `build` invocation: worker-pool lifecycle,
which stages ran, the finalize log calls, and the config object after the
build (the source mutates its argument). -/
structure BuildTrace where
  connectArg : Option Nat
  genDepManifestsCalled : Bool
  compileCalled : Bool
  bundleCalled : Bool
  generateProjectFilesCalled : Bool
  writeFilesCalled : Bool
  updateDirectoriesCalled : Bool
  disconnectCalled : Bool
  logEntries : List (String × String)
  configAfter : BuildConfig

/-- The value `build` resolves to. -/
structure BuildResults where
  diagnostics : List Diagnostic
  manifest : Manifest
  componentRegistry : List String
deriving DecidableEq

/-- Translation of `build`: the synchronous prelude (config mutation,
worker connect), the staged promise chain, the catch handler that converts
a rejection into an error diagnostic, and the finalize step (logging,
conditional disconnect, returning the results). -/
def build (cfg0 : BuildConfig) (ext : Externals) : BuildTrace × BuildResults :=
  let cfg1 := { cfg0 with writeCompiledToDisk := false }
  let co := runChain cfg1 ext
  let diagnostics := co.diagnostics ++ (match co.err with
    | some e => [{ msg := e.msg, «type» := "error", stack := e.stack }]
    | none => [])
  ({ connectArg := some cfg0.numWorkers,
     genDepManifestsCalled := co.genDepManifestsCalled,
     compileCalled := co.compileCalled,
     bundleCalled := co.bundleCalled,
     generateProjectFilesCalled := co.generateProjectFilesCalled,
     writeFilesCalled := co.writeFilesCalled,
     updateDirectoriesCalled := co.updateDirectoriesCalled,
     disconnectCalled := !cfg0.isWatch,
     logEntries := diagnostics.map (logDiagnostic cfg0.logger.level),
     configAfter := co.cfgAfter },
   { diagnostics := diagnostics, manifest := [], componentRegistry := [] })

/-! ## Data model of the transpile slice (second part of `src/compiler/build.ts`) -/

/-- Model of the platform path helper `sys.path.basename` for
slash-separated paths without a trailing separator: the segment after the
last slash. -/
def pathBasename (p : String) : String :=
  String.mk (p.data.foldl (fun acc c => if c = '/' then [] else acc ++ [c]) [])

/-- Model of the platform path helper `sys.path.join` for two segments. -/
def pathJoin (a b : String) : String :=
  if a = "" then b
  else if a.data.getLast? = some '/' then a ++ b
  else a ++ "/" ++ b

/-- Style metadata for one mode (`styleMeta[modeName]` of the source). -/
structure StyleModeMeta where
  styleUrls : Option (List String)
deriving DecidableEq

/-- Component metadata as consumed by `processIncludedStyles`: the map from
mode name to style metadata, in key order. -/
structure CmpMeta where
  styleMeta : Option (List (String × StyleModeMeta))
deriving DecidableEq

/-- One entry of the worker context's module-file map
(`ModuleFileMeta` of the source, restricted to the fields the transpile
slice reads or writes). -/
structure ModuleFileMeta where
  filePath : String
  srcDir : String
  srcText : String
  isTsSourceFile : Bool
  cmpMeta : Option CmpMeta
  recompileOnChange : Bool
  jsFilePath : Option String
  jsText : Option String
deriving DecidableEq

/-- Outcome of one `sys.sass.render` invocation: the error branch or the
`result.stats.includedFiles` list. -/
inductive SassRenderResult where
  | err (msg : String)
  | ok (includedFiles : List String)
deriving DecidableEq

/-- Diagnostic record built by `transpileFile` from a TypeScript emit
diagnostic. -/
structure TDiagnostic where
  msg : String
  level : String
  filePath : Option String
  start : Option Nat
  length : Option Nat
  category : Nat
  code : Nat
deriving DecidableEq

/-- A TypeScript emit diagnostic as reported by `program.emit`. -/
structure RawTsDiagnostic where
  messageText : String
  fileName : Option String
  start : Option Nat
  length : Option Nat
  category : Nat
  code : Nat
deriving DecidableEq

/-- The mapping of an emit diagnostic performed at the end of
`transpileFile`. -/
def toTDiagnostic (d : RawTsDiagnostic) : TDiagnostic :=
  { msg := d.messageText, level := "error", filePath := d.fileName,
    start := d.start, length := d.length, category := d.category, code := d.code }

/-- The `CompileResults` record accumulated by one `transpileFile` call. -/
structure CompileResults where
  jsFiles : List (String × String)
  diagnostics : Option (List TDiagnostic)
  includedSassFiles : Option (List String)
deriving DecidableEq

/-- Observable trace of style processing: every path handed to
`sys.sass.render`, and every logger call `(method, message)`. -/
structure StyleTrace where
  renderCalls : List String
  logs : List (String × String)
deriving DecidableEq

/-- Trace concatenation for sequenced style work. -/
def StyleTrace.seq (a b : StyleTrace) : StyleTrace :=
  ⟨a.renderCalls ++ b.renderCalls, a.logs ++ b.logs⟩

/-- The empty trace. -/
def emptyStyleTrace : StyleTrace := ⟨[], []⟩

/-- The source's guarded push
`if (arr.indexOf(x) === -1) arr.push(x)`. -/
def dedupPush (l : List String) (x : String) : List String :=
  if x ∈ l then l else l ++ [x]

/-- Translation of `getIncludedSassFiles`: record the direct path (guarded
against duplicates), log, invoke the sass compiler, and in its callback
either log the error or record every transitively included file (also
guarded); the promise always resolves. -/
def getIncludedSassFiles (sassRender : String → SassRenderResult) (cr : CompileResults)
    (scssFilePath : String) : CompileResults × StyleTrace :=
  let included1 := dedupPush (cr.includedSassFiles.getD []) scssFilePath
  let dbg := ("debug", "compile, getIncludedSassFiles: " ++ scssFilePath)
  match sassRender scssFilePath with
  | SassRenderResult.err m =>
    ({ cr with includedSassFiles := some included1 },
     ⟨[scssFilePath], [dbg, ("error", "sass.render, getIncludedSassFiles, " ++ m)]⟩)
  | SassRenderResult.ok includedFiles =>
    ({ cr with includedSassFiles := some (includedFiles.foldl dedupPush included1) },
     ⟨[scssFilePath], [dbg]⟩)

/-- The style URLs referenced by a component's style metadata, over all
modes in key order (`modeNames.forEach` + `styleUrls.forEach`). -/
def styleUrlsOfModes (modes : List (String × StyleModeMeta)) : List String :=
  modes.foldl (fun acc m => acc ++ m.2.styleUrls.getD []) []

/-- Sequential processing of the resolved style references of one file:
each reference is resolved against the owning file's directory (via
`basename` then `join`) and handed to `getIncludedSassFiles`. -/
def processStylesUrls (sassRender : String → SassRenderResult) (srcDir : String)
    (cr : CompileResults) : List String → CompileResults × StyleTrace
  | [] => (cr, emptyStyleTrace)
  | u :: us =>
    let r := getIncludedSassFiles sassRender cr (pathJoin srcDir (pathBasename u))
    let rest := processStylesUrls sassRender srcDir r.1 us
    (rest.1, r.2.seq rest.2)

/-- Translation of `processIncludedStyles`: non-source files and files
without component style metadata are skipped; otherwise every style URL of
every mode is resolved and compiled. -/
def processIncludedStyles (sassRender : String → SassRenderResult) (outDir : String)
    (moduleFile : ModuleFileMeta) (cr : CompileResults) : CompileResults × StyleTrace :=
  match moduleFile.isTsSourceFile, moduleFile.cmpMeta with
  | true, some cmp =>
    match cmp.styleMeta with
    | some modes =>
      let cr1 := { cr with includedSassFiles := some (cr.includedSassFiles.getD []) }
      let r := processStylesUrls sassRender moduleFile.srcDir cr1 (styleUrlsOfModes modes)
      (r.1, ⟨r.2.renderCalls, ("debug", "compile, processStyles, destDir " ++ outDir) :: r.2.logs⟩)
    | none => (cr, emptyStyleTrace)
  | _, _ => (cr, emptyStyleTrace)

/-- One invocation of the compiler host's `writeFile` callback during
emit. -/
structure WriteFileCall where
  jsFilePath : String
  jsText : String
  sourceFileNames : List String
deriving DecidableEq

/-- Lookup in the worker context's module-file map. -/
def moduleFilesGet (ctx : List (String × ModuleFileMeta)) (k : String) : Option ModuleFileMeta :=
  (ctx.find? (fun e => e.1 = k)).map (fun e => e.2)

/-- Update in the worker context's module-file map. -/
def moduleFilesSet (ctx : List (String × ModuleFileMeta)) (k : String) (v : ModuleFileMeta) :
    List (String × ModuleFileMeta) :=
  ctx.map (fun e => if e.1 = k then (k, v) else e)

/-- The per-source-file part of the `writeFile` host callback: a source
file present in the context map is marked recompile-needed, given its
compiled output path/text, and has its included styles processed. -/
def runWriteSources (sassRender : String → SassRenderResult) (outDir : String)
    (jsFilePath jsText : String) :
    List (String × ModuleFileMeta) × CompileResults × StyleTrace → List String →
    List (String × ModuleFileMeta) × CompileResults × StyleTrace
  | acc, [] => acc
  | (ctx, cr, tr), s :: ss =>
    match moduleFilesGet ctx s with
    | some mf =>
      let mf' := { mf with recompileOnChange := true,
                           jsFilePath := some jsFilePath, jsText := some jsText }
      let ctx' := moduleFilesSet ctx s mf'
      let r := processIncludedStyles sassRender outDir mf' cr
      runWriteSources sassRender outDir jsFilePath jsText (ctx', r.1, tr.seq r.2) ss
    | none => runWriteSources sassRender outDir jsFilePath jsText (ctx, cr, tr) ss

/-- All `writeFile` host callbacks of one emit, in emit order: sources are
updated, then the emitted text is stored under its output path. -/
def runWrites (sassRender : String → SassRenderResult) (outDir : String) :
    List (String × ModuleFileMeta) × CompileResults × StyleTrace → List WriteFileCall →
    List (String × ModuleFileMeta) × CompileResults × StyleTrace
  | acc, [] => acc
  | (ctx, cr, tr), c :: cs =>
    let (ctx', cr', tr') :=
      runWriteSources sassRender outDir c.jsFilePath c.jsText (ctx, cr, tr) c.sourceFileNames
    let cr'' := { cr' with jsFiles := assignEntry cr'.jsFiles (c.jsFilePath, c.jsText) }
    runWrites sassRender outDir (ctx', cr'', tr') cs

/-- Translation of `transpileFile`: the emitter (external) performs a
sequence of `writeFile` callbacks and reports its diagnostics; the compile
results collect the emitted files, the mapped emit diagnostics, and the
included style files. -/
def transpileFile (sassRender : String → SassRenderResult) (outDir : String)
    (ctx : List (String × ModuleFileMeta)) (writes : List WriteFileCall)
    (emitDiagnostics : List RawTsDiagnostic) :
    CompileResults × List (String × ModuleFileMeta) × StyleTrace :=
  let (ctx', cr, tr) := runWrites sassRender outDir
    (ctx, { jsFiles := [], diagnostics := none, includedSassFiles := none }, emptyStyleTrace) writes
  ({ cr with diagnostics := some (emitDiagnostics.map toTDiagnostic) }, ctx', tr)

/-- The syntax transform passes of the transform chain. -/
inductive TransformPass where
  | componentClass
  | removeImports
  | updateLifecycleMethods
  | jsxToVNode
deriving DecidableEq

/-- The transformer configuration handed to `program.emit`. -/
structure CustomTransformers where
  before : List TransformPass
  after : List TransformPass
deriving DecidableEq

/-- The transformer configuration built by `transpileFile` (lines 259–268
of the source). -/
def emitTransformers : CustomTransformers :=
  { before := [TransformPass.componentClass, TransformPass.removeImports,
               TransformPass.updateLifecycleMethods],
    after := [TransformPass.jsxToVNode] }

/-- A configuration missing one of the required fields checked by
`validateBuildConfig`. -/
def missingRequiredField (c : BuildConfig) : Prop :=
  c.srcDir = none ∨ c.sys = none ∨
    ∃ s, c.sys = some s ∧ (s.fs = false ∨ s.path = false ∨ s.sass = false ∨
      s.rollup = false ∨ s.typescript = false)

/-! ## Data model of state-property extraction
(`src/client/registry-client-es5.ts`, `getStateDecoratorMeta`) -/

/-- A decorator node attached to a class member, as inspected by the
extraction: its child count (`@` token plus expression for well-formed
decorators), the text of the decorator expression's first token (absent
when the expression is itself a single token, i.e. a bare identifier), and
the expression's whole text. -/
structure DecoratorNode where
  childCount : Nat
  firstTok : Option String
  exprText : String
deriving DecidableEq

/-- A child node of a class member as visited by `forEachChild`: a
decorator node, an identifier node with its text, or any other node. -/
inductive MemberChild where
  | dec (childCount : Nat) (firstTok : Option String) (exprText : String)
  | ident (text : String)
  | other
deriving DecidableEq

/-- A decorated class member: its decorators list (absent once the
extraction has stripped it) and its remaining children in `forEachChild`
order (decorators are visited first). -/
structure StateMember where
  decorators : Option (List DecoratorNode)
  rest : List MemberChild
deriving DecidableEq

/-- The child node through which `forEachChild` visits a decorator. -/
def decChild (d : DecoratorNode) : MemberChild :=
  MemberChild.dec d.childCount d.firstTok d.exprText

/-- The children of a member as visited by `forEachChild`: the decorator
nodes followed by the remaining children. -/
def memberChildren (m : StateMember) : List MemberChild :=
  (m.decorators.getD []).map decChild ++ m.rest

/-- The filter `n.decorators && n.decorators.length` selecting decorated
members. -/
def isDecorated (m : StateMember) : Bool :=
  match m.decorators with
  | some ds => !ds.isEmpty
  | none => false

/-- One step of the `forEachChild` visitor of `getStateDecoratorMeta`,
carried over the `(isState, propName)` pair: a decorator node with more
than one child sets `isState` when its expression's first token is `State`
or, lacking a first token, its whole text is `State`; once `isState` holds,
the first identifier child becomes the property name. -/
def scanStep (st : Bool × Option String) : MemberChild → Bool × Option String
  | MemberChild.dec childCount firstTok exprText =>
    if childCount > 1 then
      match firstTok with
      | some t => if t = "State" then (true, st.2) else st
      | none => if exprText = "State" then (true, st.2) else st
    else st
  | MemberChild.ident t => if st.1 = true ∧ st.2 = none then (st.1, some t) else st
  | MemberChild.other => st

/-- Processing of one decorated member: when the scan found the marker and
a property name, the name is collected and the member's decorators are
stripped (`memberNode.decorators = undefined`); otherwise the member is
left untouched. -/
def extractMember (m : StateMember) : Option String × StateMember :=
  if isDecorated m = true then
    let st := (memberChildren m).foldl scanStep (false, none)
    match st.1, st.2 with
    | true, some p => (some p, { m with decorators := none })
    | _, _ => (none, m)
  else (none, m)

/-- The property names collected by the member loop, in member order. -/
def collectedStateNames (ms : List StateMember) : List String :=
  (ms.map extractMember).filterMap (fun r => r.1)

/-- Translation of `getStateDecoratorMeta` on the members of a class
declaration: collect the state property names, strip the consumed
decorators, and sort the names with the case-insensitive comparator
(`Array.prototype.sort` is modelled by a stable sort with respect to the
comparator's preorder). -/
def getStateDecoratorMeta (ms : List StateMember) : List String × List StateMember :=
  (List.insertionSort ciLe (collectedStateNames ms), (ms.map extractMember).map (fun r => r.2))

/-- The source's predicate deciding that a decorator is the `State`
marker: the decorator expression's first token's text is `State`, or the
expression has no first token and its whole text is `State`. -/
def isStateDecorator (d : DecoratorNode) : Prop :=
  d.firstTok = some "State" ∨ (d.firstTok = none ∧ d.exprText = "State")

instance : DecidablePred isStateDecorator := fun _ => inferInstanceAs (Decidable (_ ∨ _))

/-- The first identifier token among a member's non-decorator children. -/
def firstIdentText (cs : List MemberChild) : Option String :=
  cs.findSome? (fun c => match c with | MemberChild.ident t => some t | _ => none)

/-- Whether a member child is a decorator node. -/
def isDecChild : MemberChild → Bool
  | MemberChild.dec _ _ _ => true
  | _ => false

/-! ## Concrete fixtures used to instantiate the theorems -/

/-- A capability record with every required hook present. -/
def sysAll : SysCaps := ⟨true, true, true, true, true⟩

/-- A configuration whose `srcDir` is absent (everything else present). -/
def cfgMissingSrc : BuildConfig :=
  { srcDir := none, sys := some sysAll, logger := ⟨"info"⟩, rootDir := "/",
    destDir := "/www/build", bundles := none, collections := none, «namespace» := none,
    isDevMode := true, isWatch := false, numWorkers := 4, writeCompiledToDisk := true }

/-- A valid configuration whose namespace is whitespace-only. -/
def cfgValidWs : BuildConfig :=
  { cfgMissingSrc with srcDir := some "/src", «namespace» := some " " }

/-- The config produced by validating `cfgValidWs`. -/
def cfgValidRes : BuildConfig :=
  { cfgValidWs with bundles := some [], collections := some [], «namespace» := some "bundles" }

/-- External collaborators that all succeed with empty results. -/
def extOkStub : Externals :=
  { generateDependentManifests := Except.ok [],
    updateManifestUrls := fun m => m,
    mergeManifests := fun l => l.foldl (fun a b => a ++ b) [],
    compileProject := Except.ok { diagnostics := none, filesToWrite := none, manifest := none },
    bundleProject := fun _ =>
      Except.ok { diagnostics := none, filesToWrite := none, componentRegistry := [] },
    generateProjectFiles := fun f => Except.ok f,
    writeFiles := fun _ => Except.ok (),
    updateDirectories := fun _ => Except.ok () }

/-- External collaborators whose dependent-manifest discovery rejects. -/
def extFailingDeps : Externals :=
  { extOkStub with
    generateDependentManifests := Except.error ⟨"Error: ENOENT", some "stack-trace"⟩ }

/-- Empty compile results, as at the start of a `transpileFile` call. -/
def crEmpty : CompileResults := { jsFiles := [], diagnostics := none, includedSassFiles := none }

/-- A sass compiler that always succeeds with no transitively included
files. -/
def sassOkStub : String → SassRenderResult := fun _ => SassRenderResult.ok []

/-- A sass compiler that always fails. -/
def sassFailStub : String → SassRenderResult := fun _ => SassRenderResult.err "ENOENT: no such file"

/-- A component source file referencing the style `shared.scss`. -/
def mfCmpA : ModuleFileMeta :=
  { filePath := "/src/cmp/a.ts", srcDir := "/src/cmp", srcText := "class A {}",
    isTsSourceFile := true,
    cmpMeta := some { styleMeta := some [("default", { styleUrls := some ["shared.scss"] })] },
    recompileOnChange := false, jsFilePath := none, jsText := none }

/-- A second component source file referencing the same style. -/
def mfCmpB : ModuleFileMeta := { mfCmpA with filePath := "/src/cmp/b.ts", srcText := "class B {}" }

/-- A component whose style URL contains a subdirectory segment. -/
def mfSubdir : ModuleFileMeta :=
  { mfCmpA with
    filePath := "/src/cmp/my-cmp.ts"
    cmpMeta := some { styleMeta := some [("default", { styleUrls := some ["sub/foo.scss"] })] } }

/-- A module-file map holding the two components referencing the same
style. -/
def ctxTwoCmps : List (String × ModuleFileMeta) :=
  [("/src/cmp/a.ts", mfCmpA), ("/src/cmp/b.ts", mfCmpB)]

/-- The emit callbacks for the two components. -/
def writesTwoCmps : List WriteFileCall :=
  [⟨"/www/build/a.js", "var a;", ["/src/cmp/a.ts"]⟩,
   ⟨"/www/build/b.js", "var b;", ["/src/cmp/b.ts"]⟩]

/-- A module-file map holding one styled component. -/
def ctxStyled : List (String × ModuleFileMeta) := [("/src/cmp/a.ts", mfCmpA)]

/-- The emit callback for the styled component. -/
def writesStyled : List WriteFileCall := [⟨"/www/build/a.js", "var a;", ["/src/cmp/a.ts"]⟩]

/-- Every style path handed to the sass compiler that failed has its error
logged through the logger's error channel in this trace. -/
def errLogged (f : String → SassRenderResult) (tr : StyleTrace) : Prop :=
  ∀ p m, p ∈ tr.renderCalls → f p = SassRenderResult.err m →
    ("error", "sass.render, getIncludedSassFiles, " ++ m) ∈ tr.logs

/-- A call-style `State()` decorator node. -/
def stateDecCall : DecoratorNode := ⟨2, some "State", "State()"⟩

/-- A bare `State` decorator node (the expression is a single token, so it
has no first token of its own). -/
def stateDecBare : DecoratorNode := ⟨2, none, "State"⟩

/-- A class member declaring the state property `count`. -/
def memberCount : StateMember := ⟨some [stateDecCall], [MemberChild.ident "count"]⟩

/-- A class member declaring the state property `A`. -/
def memberUpperA : StateMember := ⟨some [stateDecCall], [MemberChild.ident "A"]⟩

/-- A class member declaring the state property `a`. -/
def memberLowerA : StateMember := ⟨some [stateDecCall], [MemberChild.ident "a"]⟩

/-- A class member declaring the state property `B`. -/
def memberUpperB : StateMember := ⟨some [stateDecCall], [MemberChild.ident "B"]⟩

/-- A class member bearing the `State` marker twice on one property. -/
def memberTwiceMarked : StateMember := ⟨some [stateDecCall, stateDecCall], [MemberChild.ident "a"]⟩

/-! ## Lemmas about the comparator and trim models -/

theorem charListLt_asymm : ∀ {x y : List Char}, charListLt x y = true → charListLt y x = false
  | _, [], h => by simp [charListLt] at h
  | [], _ :: _, _ => by simp [charListLt]
  | a :: as, b :: bs, h => by
    by_cases hab : a.toNat < b.toNat
    · simp [charListLt, hab, show ¬ b.toNat < a.toNat by omega]
    · by_cases hba : b.toNat < a.toNat
      · simp [charListLt, hab, hba] at h
      · have h' : charListLt as bs = true := by simpa [charListLt, hab, hba] using h
        simpa [charListLt, hab, hba] using charListLt_asymm h'

theorem charListLt_false_trans : ∀ {x y z : List Char},
    charListLt y x = false → charListLt z y = false → charListLt z x = false
  | [], _, _, _, _ => by simp [charListLt]
  | _ :: _, [], _, h1, _ => by simp [charListLt] at h1
  | _ :: _, _ :: _, [], _, h2 => by simp [charListLt] at h2
  | a :: as, b :: bs, c :: cs, h1, h2 => by
    by_cases hba : b.toNat < a.toNat
    · simp [charListLt, hba] at h1
    · by_cases hcb : c.toNat < b.toNat
      · simp [charListLt, hcb] at h2
      · by_cases hca : c.toNat < a.toNat
        · omega
        · by_cases hac : a.toNat < c.toNat
          · simp [charListLt, hca, hac]
          · have hab : ¬ a.toNat < b.toNat := by omega
            have hbc : ¬ b.toNat < c.toNat := by omega
            have h1' : charListLt bs as = false := by simpa [charListLt, hba, hab] using h1
            have h2' : charListLt cs bs = false := by simpa [charListLt, hcb, hbc] using h2
            simpa [charListLt, hca, hac] using charListLt_false_trans h1' h2'

theorem charListLt_false_false_eq : ∀ {x y : List Char},
    charListLt x y = false → charListLt y x = false → x = y
  | [], [], _, _ => rfl
  | [], _ :: _, h, _ => by simp [charListLt] at h
  | _ :: _, [], _, h => by simp [charListLt] at h
  | a :: as, b :: bs, h1, h2 => by
    by_cases hab : a.toNat < b.toNat
    · simp [charListLt, hab] at h1
    · by_cases hba : b.toNat < a.toNat
      · simp [charListLt, hba, hab] at h2
      · have h1' : charListLt as bs = false := by simpa [charListLt, hab, hba] using h1
        have h2' : charListLt bs as = false := by simpa [charListLt, hba, hab] using h2
        have h3 : a.toNat = b.toNat := by omega
        have hch : a = b := Char.ext_iff.mpr (UInt32.ext h3)
        rw [hch, charListLt_false_false_eq h1' h2']

instance : IsTotal String ciLe := ⟨fun a b => by
  unfold ciLe
  rcases h : charListLt (lowerKey b) (lowerKey a)
  · exact Or.inl rfl
  · exact Or.inr (charListLt_asymm h)⟩

instance : IsTrans String ciLe := ⟨fun _ _ _ h1 h2 => charListLt_false_trans h1 h2⟩

theorem dropWhile_cons_false {p : Char → Bool} :
    ∀ {l : List Char} {c : Char} {t : List Char}, l.dropWhile p = c :: t → p c = false := by
  intro l
  induction l with
  | nil => intro c t h; simp [List.dropWhile] at h
  | cons a l ih =>
    intro c t h
    by_cases hp : p a
    · rw [List.dropWhile_cons, if_pos hp] at h
      exact ih h
    · rw [List.dropWhile_cons, if_neg hp] at h
      cases h
      simpa using hp

theorem mem_dropWhile_of_false {p : Char → Bool} {c : Char} (hc : p c = false) :
    ∀ {l : List Char}, c ∈ l → c ∈ l.dropWhile p := by
  intro l
  induction l with
  | nil => intro h; cases h
  | cons a l ih =>
    intro h
    by_cases hp : p a
    · rw [List.dropWhile_cons, if_pos hp]
      rcases List.mem_cons.mp h with rfl | h'
      · rw [hp] at hc; cases hc
      · exact ih h'
    · rw [List.dropWhile_cons, if_neg hp]
      exact h

theorem trimChars_trimChars_ne_nil {l : List Char} (h : trimChars l ≠ []) :
    trimChars (trimChars l) ≠ [] := by
  rcases hB : (l.dropWhile Char.isWhitespace).reverse.dropWhile Char.isWhitespace with _ | ⟨c, t⟩
  · exact absurd (by simp [trimChars, hB]) h
  · have hc : Char.isWhitespace c = false := dropWhile_cons_false hB
    have hcm : c ∈ trimChars l := by
      rw [trimChars, hB]
      exact List.mem_reverse.mpr (List.mem_cons_self c t)
    have s1 : c ∈ (trimChars l).dropWhile Char.isWhitespace := mem_dropWhile_of_false hc hcm
    have s2 : c ∈ ((trimChars l).dropWhile Char.isWhitespace).reverse := List.mem_reverse.mpr s1
    have s3 : c ∈ (((trimChars l).dropWhile Char.isWhitespace).reverse).dropWhile Char.isWhitespace :=
      mem_dropWhile_of_false hc s2
    exact List.ne_nil_of_mem (List.mem_reverse.mpr s3)

theorem stringMk_eq_empty_iff {l : List Char} : String.mk l = "" ↔ l = [] :=
  ⟨fun h => congrArg String.data h, fun h => by rw [h]⟩

/-! ## Inversion lemmas for the validate stage and the chain -/

theorem validateBuildConfig_ok {c c' : BuildConfig} (h : validateBuildConfig c = Except.ok c') :
    c' = { c with
      bundles := some (c.bundles.getD []),
      collections := some (c.collections.getD []),
      «namespace» := some (jsTrim (if jsTrim (jsOrStr c.«namespace» "App") = "" then "bundles"
                                   else jsTrim (jsOrStr c.«namespace» "App"))) } := by
  unfold validateBuildConfig at h
  split at h
  · exact Except.noConfusion h
  · split at h
    · exact Except.noConfusion h
    · split at h
      · exact Except.noConfusion h
      · split at h
        · exact Except.noConfusion h
        · split at h
          · exact Except.noConfusion h
          · split at h
            · exact Except.noConfusion h
            · split at h
              · exact Except.noConfusion h
              · injection h with h1
                exact h1.symm

theorem validate_error_of_missing {c : BuildConfig} (h : missingRequiredField c) :
    ∃ m, validateBuildConfig c = Except.error m := by
  unfold validateBuildConfig
  by_cases h1 : jsTruthyStr c.srcDir = false
  · rw [if_pos h1]
    exact ⟨_, rfl⟩
  · rw [if_neg h1]
    rcases hsys : c.sys with _ | s
    · exact ⟨_, rfl⟩
    · rcases h with hsrc | hs | ⟨s', hs', hcaps⟩
      · rw [hsrc] at h1
        exact absurd rfl h1
      · rw [hs] at hsys
        exact Option.noConfusion hsys
      · rw [hsys] at hs'
        injection hs' with he
        subst he
        by_cases c1 : s.fs = false
        · exact ⟨"config.sys.fs required", by simp [c1]⟩
        · by_cases c2 : s.path = false
          · exact ⟨"config.sys.path required", by simp [c1, c2]⟩
          · by_cases c3 : s.sass = false
            · exact ⟨"config.sys.sass required", by simp [c1, c2, c3]⟩
            · by_cases c4 : s.rollup = false
              · exact ⟨"config.sys.rollup required", by simp [c1, c2, c3, c4]⟩
              · by_cases c5 : s.typescript = false
                · exact ⟨"config.sys.typescript required", by simp [c1, c2, c3, c4, c5]⟩
                · rcases hcaps with hcap | hcap | hcap | hcap | hcap <;> contradiction

theorem runChain_cfgAfter_wctd (cfg1 : BuildConfig) (ext : Externals) :
    (runChain cfg1 ext).cfgAfter.writeCompiledToDisk = cfg1.writeCompiledToDisk := by
  unfold runChain
  rcases hval : validateBuildConfig cfg1 with m | c2
  · simp
  · have hw := validateBuildConfig_ok hval
    rcases ext.generateDependentManifests with e | deps
    · simp [hw]
    · rcases ext.compileProject with e | crs
      · simp [hw]
      · simp only
        rcases ext.bundleProject _ with e | brs
        · simp [hw]
        · simp only
          rcases ext.generateProjectFiles _ with e | f3
          · simp [hw]
          · split
            · simp [hw]
            · split
              · simp [hw]
              · simp [hw]

/-! ## Lemmas about the style resolver and `transpileFile` -/

theorem getIncludedSassFiles_jsFiles (f : String → SassRenderResult) (cr : CompileResults)
    (p : String) : ((getIncludedSassFiles f cr p).1).jsFiles = cr.jsFiles := by
  unfold getIncludedSassFiles
  rcases h : f p with m | fls <;> simp [h]

theorem getIncludedSassFiles_renderCalls (f : String → SassRenderResult) (cr : CompileResults)
    (p : String) : (getIncludedSassFiles f cr p).2.renderCalls = [p] := by
  unfold getIncludedSassFiles
  rcases h : f p with m | fls <;> simp [h]

theorem processStylesUrls_jsFiles (f : String → SassRenderResult) (d : String) :
    ∀ (us : List String) (cr : CompileResults),
      ((processStylesUrls f d cr us).1).jsFiles = cr.jsFiles := by
  intro us
  induction us with
  | nil => intro cr; rfl
  | cons u us ih =>
    intro cr
    simp only [processStylesUrls]
    rw [ih, getIncludedSassFiles_jsFiles]

theorem processStylesUrls_renderCalls (f : String → SassRenderResult) (d : String) :
    ∀ (us : List String) (cr : CompileResults),
      (processStylesUrls f d cr us).2.renderCalls =
        us.map (fun u => pathJoin d (pathBasename u)) := by
  intro us
  induction us with
  | nil => intro cr; rfl
  | cons u us ih =>
    intro cr
    simp only [processStylesUrls, StyleTrace.seq, List.map_cons]
    rw [getIncludedSassFiles_renderCalls, ih]
    rfl

theorem processIncludedStyles_jsFiles (f : String → SassRenderResult) (outDir : String)
    (mf : ModuleFileMeta) (cr : CompileResults) :
    ((processIncludedStyles f outDir mf cr).1).jsFiles = cr.jsFiles := by
  unfold processIncludedStyles
  split
  · split
    · simp [processStylesUrls_jsFiles]
    · rfl
  · rfl

theorem nodup_dedupPush {l : List String} {x : String} (h : l.Nodup) : (dedupPush l x).Nodup := by
  unfold dedupPush
  split
  · exact h
  · rename_i hx
    rw [List.nodup_append]
    exact ⟨h, List.nodup_singleton x, fun a ha hb => hx (List.mem_singleton.mp hb ▸ ha)⟩

theorem nodup_foldl_dedupPush : ∀ (fls : List String) {l : List String}, l.Nodup →
    (fls.foldl dedupPush l).Nodup := by
  intro fls
  induction fls with
  | nil => intro l h; exact h
  | cons x fls ih => intro l h; exact ih (nodup_dedupPush h)

theorem getIncludedSassFiles_nodup (f : String → SassRenderResult) (cr : CompileResults)
    (p : String) (h : (cr.includedSassFiles.getD []).Nodup) :
    (((getIncludedSassFiles f cr p).1).includedSassFiles.getD []).Nodup := by
  unfold getIncludedSassFiles
  rcases hf : f p with m | fls
  · simpa using nodup_dedupPush h
  · simpa using nodup_foldl_dedupPush fls (nodup_dedupPush h)

theorem processStylesUrls_nodup (f : String → SassRenderResult) (d : String) :
    ∀ (us : List String) (cr : CompileResults), (cr.includedSassFiles.getD []).Nodup →
      (((processStylesUrls f d cr us).1).includedSassFiles.getD []).Nodup := by
  intro us
  induction us with
  | nil => intro cr h; exact h
  | cons u us ih =>
    intro cr h
    simp only [processStylesUrls]
    exact ih _ (getIncludedSassFiles_nodup f cr _ h)

theorem processIncludedStyles_nodup (f : String → SassRenderResult) (outDir : String)
    (mf : ModuleFileMeta) (cr : CompileResults) (h : (cr.includedSassFiles.getD []).Nodup) :
    (((processIncludedStyles f outDir mf cr).1).includedSassFiles.getD []).Nodup := by
  unfold processIncludedStyles
  split
  · split
    · exact processStylesUrls_nodup f _ _ _ (by simpa using h)
    · exact h
  · exact h

theorem runWriteSources_nodup (f : String → SassRenderResult) (outDir jp jt : String) :
    ∀ (ss : List String) (ctx : List (String × ModuleFileMeta)) (cr : CompileResults)
      (tr : StyleTrace), (cr.includedSassFiles.getD []).Nodup →
      (((runWriteSources f outDir jp jt (ctx, cr, tr) ss).2.1).includedSassFiles.getD []).Nodup := by
  intro ss
  induction ss with
  | nil => intro ctx cr tr h; exact h
  | cons s ss ih =>
    intro ctx cr tr h
    simp only [runWriteSources]
    rcases hg : moduleFilesGet ctx s with _ | mf
    · exact ih ctx cr tr h
    · exact ih _ _ _ (processIncludedStyles_nodup f outDir _ cr h)

theorem runWriteSources_jsFiles (f : String → SassRenderResult) (outDir jp jt : String) :
    ∀ (ss : List String) (ctx : List (String × ModuleFileMeta)) (cr : CompileResults)
      (tr : StyleTrace),
      ((runWriteSources f outDir jp jt (ctx, cr, tr) ss).2.1).jsFiles = cr.jsFiles := by
  intro ss
  induction ss with
  | nil => intro ctx cr tr; rfl
  | cons s ss ih =>
    intro ctx cr tr
    simp only [runWriteSources]
    rcases hg : moduleFilesGet ctx s with _ | mf
    · exact ih ctx cr tr
    · rw [ih, processIncludedStyles_jsFiles]

theorem assignEntry_self_mem (m : List (String × String)) (k v : String) :
    (k, v) ∈ assignEntry m (k, v) := by
  unfold assignEntry
  split
  · rename_i hany
    obtain ⟨e, hem, hek⟩ := List.any_eq_true.mp hany
    refine List.mem_map.mpr ⟨e, hem, ?_⟩
    simp only [of_decide_eq_true hek, if_pos]
  · exact List.mem_append.mpr (Or.inr (List.mem_singleton_self _))

theorem assignEntry_preserves_key {m : List (String × String)} {kv : String × String}
    {k t : String} (h : (k, t) ∈ m) : ∃ t', (k, t') ∈ assignEntry m kv := by
  unfold assignEntry
  split
  · by_cases hk : k = kv.1
    · exact ⟨kv.2, List.mem_map.mpr ⟨(k, t), h, by simp [hk]⟩⟩
    · exact ⟨t, List.mem_map.mpr ⟨(k, t), h, by simp [hk]⟩⟩
  · exact ⟨t, List.mem_append.mpr (Or.inl h)⟩

theorem runWrites_preserves_key (f : String → SassRenderResult) (outDir : String) :
    ∀ (cs : List WriteFileCall) (ctx : List (String × ModuleFileMeta)) (cr : CompileResults)
      (tr : StyleTrace) (k t : String), (k, t) ∈ cr.jsFiles →
      ∃ t', (k, t') ∈ ((runWrites f outDir (ctx, cr, tr) cs).2.1).jsFiles := by
  intro cs
  induction cs with
  | nil => intro ctx cr tr k t h; exact ⟨t, h⟩
  | cons c cs ih =>
    intro ctx cr tr k t h
    simp only [runWrites]
    have h1 : (k, t) ∈ ((runWriteSources f outDir c.jsFilePath c.jsText (ctx, cr, tr)
        c.sourceFileNames).2.1).jsFiles := by
      rw [runWriteSources_jsFiles]; exact h
    obtain ⟨t', ht'⟩ := @assignEntry_preserves_key _ (c.jsFilePath, c.jsText) _ _ h1
    exact ih _ _ _ k t' ht'

theorem runWrites_mem (f : String → SassRenderResult) (outDir : String) :
    ∀ (cs : List WriteFileCall) (ctx : List (String × ModuleFileMeta)) (cr : CompileResults)
      (tr : StyleTrace), ∀ c ∈ cs,
      ∃ t, (c.jsFilePath, t) ∈ ((runWrites f outDir (ctx, cr, tr) cs).2.1).jsFiles := by
  intro cs
  induction cs with
  | nil => intro ctx cr tr c hc; cases hc
  | cons c0 cs ih =>
    intro ctx cr tr c hc
    rcases List.mem_cons.mp hc with rfl | hc'
    · simp only [runWrites]
      have h1 : (c.jsFilePath, c.jsText) ∈ assignEntry
          ((runWriteSources f outDir c.jsFilePath c.jsText (ctx, cr, tr)
            c.sourceFileNames).2.1).jsFiles (c.jsFilePath, c.jsText) :=
        assignEntry_self_mem _ _ _
      exact runWrites_preserves_key f outDir cs _ _ _ _ _ h1
    · simp only [runWrites]
      exact ih _ _ _ c hc'

theorem runWrites_nodup (f : String → SassRenderResult) (outDir : String) :
    ∀ (cs : List WriteFileCall) (ctx : List (String × ModuleFileMeta)) (cr : CompileResults)
      (tr : StyleTrace), (cr.includedSassFiles.getD []).Nodup →
      (((runWrites f outDir (ctx, cr, tr) cs).2.1).includedSassFiles.getD []).Nodup := by
  intro cs
  induction cs with
  | nil => intro ctx cr tr h; exact h
  | cons c cs ih =>
    intro ctx cr tr h
    simp only [runWrites]
    exact ih _ _ _ (runWriteSources_nodup f outDir _ _ _ _ _ _ h)

theorem errLogged_empty (f : String → SassRenderResult) : errLogged f emptyStyleTrace := by
  intro p m hp
  cases hp

theorem errLogged_seq {f : String → SassRenderResult} {a b : StyleTrace}
    (ha : errLogged f a) (hb : errLogged f b) : errLogged f (a.seq b) := by
  intro p m hp hf
  rcases List.mem_append.mp hp with h | h
  · exact List.mem_append.mpr (Or.inl (ha p m h hf))
  · exact List.mem_append.mpr (Or.inr (hb p m h hf))

theorem errLogged_consLog {f : String → SassRenderResult} {tr : StyleTrace}
    (h : errLogged f tr) (x : String × String) :
    errLogged f ⟨tr.renderCalls, x :: tr.logs⟩ := by
  intro p m hp hf
  exact List.mem_cons.mpr (Or.inr (h p m hp hf))

theorem errLogged_getIncludedSassFiles (f : String → SassRenderResult) (cr : CompileResults)
    (p : String) : errLogged f (getIncludedSassFiles f cr p).2 := by
  unfold getIncludedSassFiles
  rcases hf : f p with m | fls
  · intro p' m' hp' hf'
    have hpp : p' = p := by simpa using hp'
    rw [hpp, hf] at hf'
    have hm : m = m' := SassRenderResult.err.inj hf'
    subst hm
    exact List.mem_cons.mpr (Or.inr (List.mem_cons.mpr (Or.inl rfl)))
  · intro p' m' hp' hf'
    have hpp : p' = p := by simpa using hp'
    rw [hpp, hf] at hf'
    exact SassRenderResult.noConfusion hf'

theorem errLogged_processStylesUrls (f : String → SassRenderResult) (d : String) :
    ∀ (us : List String) (cr : CompileResults), errLogged f (processStylesUrls f d cr us).2 := by
  intro us
  induction us with
  | nil => intro cr; exact errLogged_empty f
  | cons u us ih =>
    intro cr
    exact errLogged_seq (errLogged_getIncludedSassFiles f cr _) (ih _)

theorem errLogged_processIncludedStyles (f : String → SassRenderResult) (outDir : String)
    (mf : ModuleFileMeta) (cr : CompileResults) :
    errLogged f (processIncludedStyles f outDir mf cr).2 := by
  unfold processIncludedStyles
  split
  · split
    · exact errLogged_consLog (errLogged_processStylesUrls f mf.srcDir _ _) _
    · exact errLogged_empty f
  · exact errLogged_empty f

theorem errLogged_runWriteSources (f : String → SassRenderResult) (outDir jp jt : String) :
    ∀ (ss : List String) (ctx : List (String × ModuleFileMeta)) (cr : CompileResults)
      (tr : StyleTrace), errLogged f tr →
      errLogged f (runWriteSources f outDir jp jt (ctx, cr, tr) ss).2.2 := by
  intro ss
  induction ss with
  | nil => intro ctx cr tr h; exact h
  | cons s ss ih =>
    intro ctx cr tr h
    simp only [runWriteSources]
    rcases hg : moduleFilesGet ctx s with _ | mf
    · exact ih ctx cr tr h
    · exact ih _ _ _ (errLogged_seq h (errLogged_processIncludedStyles f outDir _ cr))

theorem errLogged_runWrites (f : String → SassRenderResult) (outDir : String) :
    ∀ (cs : List WriteFileCall) (ctx : List (String × ModuleFileMeta)) (cr : CompileResults)
      (tr : StyleTrace), errLogged f tr →
      errLogged f (runWrites f outDir (ctx, cr, tr) cs).2.2 := by
  intro cs
  induction cs with
  | nil => intro ctx cr tr h; exact h
  | cons c cs ih =>
    intro ctx cr tr h
    simp only [runWrites]
    exact ih _ _ _ (errLogged_runWriteSources f outDir _ _ _ _ _ _ h)

/-! ## Lemmas about state-property extraction -/

theorem extractMember_none_decorators {m : StateMember} (h : m.decorators = none) :
    extractMember m = (none, m) := by
  unfold extractMember
  rw [if_neg]
  simp [isDecorated, h]

theorem extractMember_cases (m : StateMember) :
    extractMember m = (none, m)
    ∨ ∃ p, extractMember m = (some p, { m with decorators := none }) := by
  unfold extractMember
  by_cases hd : isDecorated m = true
  · rw [if_pos hd]
    rcases h : (memberChildren m).foldl scanStep (false, none) with ⟨b, pn⟩
    cases b <;> cases pn <;> simp
  · rw [if_neg hd]
    exact Or.inl rfl

theorem extractMember_second (m : StateMember) :
    (extractMember (extractMember m).2).1 = none := by
  rcases extractMember_cases m with h | ⟨p, h⟩
  · simp [h]
  · rw [h]
    simp [@extractMember_none_decorators { m with decorators := none } rfl]

theorem scanStep_dec {b : Bool} {pn : Option String} {d : DecoratorNode}
    (hcc : 1 < d.childCount) :
    scanStep (b, pn) (decChild d) = ((b || decide (isStateDecorator d)), pn) := by
  rcases d with ⟨cc, ft, tx⟩
  simp only [decChild, scanStep, isStateDecorator] at *
  rw [if_pos hcc]
  cases ft with
  | none =>
    by_cases htx : tx = "State" <;> simp [htx]
  | some t =>
    by_cases ht : t = "State" <;> simp [ht]

theorem scan_decs : ∀ (ds : List DecoratorNode) (b : Bool) (pn : Option String),
    (∀ d ∈ ds, 1 < d.childCount) →
    ((ds.map decChild).foldl scanStep (b, pn)).2 = pn
    ∧ (((ds.map decChild).foldl scanStep (b, pn)).1 = true ↔
        (b = true ∨ ∃ d ∈ ds, isStateDecorator d)) := by
  intro ds
  induction ds with
  | nil => intro b pn _; exact ⟨rfl, by simp⟩
  | cons d ds ih =>
    intro b pn hcc
    have hd : 1 < d.childCount := hcc d (List.mem_cons_self d ds)
    have hds : ∀ d' ∈ ds, 1 < d'.childCount := fun d' h' => hcc d' (List.mem_cons_of_mem d h')
    simp only [List.map_cons, List.foldl_cons, scanStep_dec hd]
    obtain ⟨h2, h1⟩ := ih (b || decide (isStateDecorator d)) pn hds
    refine ⟨h2, h1.trans ?_⟩
    by_cases hsd : isStateDecorator d <;> simp [hsd]

theorem scan_rest_some : ∀ (cs : List MemberChild), (∀ c ∈ cs, isDecChild c = false) →
    ∀ p, cs.foldl scanStep (true, some p) = (true, some p) := by
  intro cs
  induction cs with
  | nil => intro _ p; rfl
  | cons c cs ih =>
    intro hnd p
    have hc := hnd c (List.mem_cons_self c cs)
    have hcs : ∀ c' ∈ cs, isDecChild c' = false := fun c' h' => hnd c' (List.mem_cons_of_mem c h')
    cases c with
    | dec cc ft tx => simp [isDecChild] at hc
    | ident t =>
      simp only [List.foldl_cons, scanStep]
      rw [if_neg (by simp)]
      exact ih hcs p
    | other => exact ih hcs p

theorem scan_rest_none : ∀ (cs : List MemberChild), (∀ c ∈ cs, isDecChild c = false) →
    cs.foldl scanStep (true, none) = (true, firstIdentText cs) := by
  intro cs
  induction cs with
  | nil => intro _; rfl
  | cons c cs ih =>
    intro hnd
    have hc := hnd c (List.mem_cons_self c cs)
    have hcs : ∀ c' ∈ cs, isDecChild c' = false := fun c' h' => hnd c' (List.mem_cons_of_mem c h')
    cases c with
    | dec cc ft tx => simp [isDecChild] at hc
    | ident t =>
      simp only [List.foldl_cons, scanStep, firstIdentText, List.findSome?_cons]
      rw [if_pos (by simp)]
      exact scan_rest_some cs hcs t
    | other =>
      simp only [List.foldl_cons, scanStep, firstIdentText, List.findSome?_cons]
      exact ih hcs

theorem scan_rest_false : ∀ (cs : List MemberChild), (∀ c ∈ cs, isDecChild c = false) →
    cs.foldl scanStep (false, none) = (false, none) := by
  intro cs
  induction cs with
  | nil => intro _; rfl
  | cons c cs ih =>
    intro hnd
    have hc := hnd c (List.mem_cons_self c cs)
    have hcs : ∀ c' ∈ cs, isDecChild c' = false := fun c' h' => hnd c' (List.mem_cons_of_mem c h')
    cases c with
    | dec cc ft tx => simp [isDecChild] at hc
    | ident t =>
      simp only [List.foldl_cons, scanStep]
      rw [if_neg (by simp)]
      exact ih hcs
    | other => exact ih hcs

/-! ## Claim C1 -/

/-- C1: for every BuildConfig missing `srcDir`, `sys`, `sys.fs`, `sys.path`,
`sys.sass`, `sys.rollup` or `sys.typescript`, the build fails the validate
stage before any later stage runs (dependent-manifest discovery, compile,
bundle, project-file generation), produces zero output files (neither
`writeFiles` nor `updateDirectories` is invoked), and the returned
BuildResult's diagnostics consist of exactly the error diagnostic carrying
the validate-stage message naming the missing field. -/
theorem build_missing_field_fails_validate (cfg : BuildConfig) (ext : Externals)
    (h : missingRequiredField cfg) :
    (build cfg ext).1.genDepManifestsCalled = false
    ∧ (build cfg ext).1.compileCalled = false
    ∧ (build cfg ext).1.bundleCalled = false
    ∧ (build cfg ext).1.generateProjectFilesCalled = false
    ∧ (build cfg ext).1.writeFilesCalled = false
    ∧ (build cfg ext).1.updateDirectoriesCalled = false
    ∧ ∃ m, validateBuildConfig { cfg with writeCompiledToDisk := false } = Except.error m
        ∧ (build cfg ext).2.diagnostics = [{ msg := m, «type» := "error", stack := none }] := by
  have hm : missingRequiredField { cfg with writeCompiledToDisk := false } := h
  obtain ⟨m, hv⟩ := validate_error_of_missing hm
  refine ⟨?_, ?_, ?_, ?_, ?_, ?_, m, hv, ?_⟩ <;> simp [build, runChain, hv]

/-- Witness for C1: a concrete config missing `srcDir` runs no stage,
writes nothing, and reports exactly the `config.srcDir required` error. -/
theorem build_missing_field_fails_validate_witness :
    (build cfgMissingSrc extOkStub).1.writeFilesCalled = false
    ∧ (build cfgMissingSrc extOkStub).1.updateDirectoriesCalled = false
    ∧ (build cfgMissingSrc extOkStub).1.genDepManifestsCalled = false
    ∧ (build cfgMissingSrc extOkStub).2.diagnostics =
        [{ msg := "config.srcDir required", «type» := "error", stack := none }] := by
  obtain ⟨h1, h2, h3, h4, h5, h6, m, hv, hd⟩ :=
    build_missing_field_fails_validate cfgMissingSrc extOkStub (Or.inl rfl)
  have h7 : validateBuildConfig { cfgMissingSrc with writeCompiledToDisk := false } =
      Except.error "config.srcDir required" := rfl
  rw [hv] at h7
  have hm : m = "config.srcDir required" := Except.error.inj h7
  exact ⟨h5, h6, h1, by rw [hd, hm]⟩

/-! ## Claim C3 -/

/-- C3: every build resolves to a BuildResult whose diagnostics are the
accumulated stage diagnostics followed by the catch-handler diagnostic of
the stage error, if any; finalize logs every diagnostic exactly once —
an error diagnostic carrying a stack is logged through its stack when the
logger level is `debug`, every other diagnostic through its message — and
the worker manager is disconnected exactly when watch mode is off. -/
theorem build_always_resolves_and_logs (cfg : BuildConfig) (ext : Externals) :
    (build cfg ext).2.diagnostics =
      (runChain { cfg with writeCompiledToDisk := false } ext).diagnostics ++
        (match (runChain { cfg with writeCompiledToDisk := false } ext).err with
         | some e => [{ msg := e.msg, «type» := "error", stack := e.stack }]
         | none => [])
    ∧ (build cfg ext).1.logEntries = (build cfg ext).2.diagnostics.map (fun d =>
        match d.stack with
        | some s => if d.«type» = "error" ∧ cfg.logger.level = "debug" then ("error", s)
                    else (d.«type», d.msg)
        | none => (d.«type», d.msg))
    ∧ (build cfg ext).1.logEntries.length = (build cfg ext).2.diagnostics.length
    ∧ (build cfg ext).1.disconnectCalled = !cfg.isWatch
    ∧ ∀ e, (runChain { cfg with writeCompiledToDisk := false } ext).err = some e →
        ({ msg := e.msg, «type» := "error", stack := e.stack } : Diagnostic)
          ∈ (build cfg ext).2.diagnostics := by
  refine ⟨rfl, rfl, List.length_map _ _, rfl, ?_⟩
  intro e he
  simp [build, he]

/-- Witness for C3: with a concrete valid config and a rejecting
dependent-manifest stage, the catch-handler diagnostic is in the returned
diagnostics. -/
theorem build_always_resolves_and_logs_witness :
    ({ msg := "Error: ENOENT", «type» := "error", stack := some "stack-trace" } : Diagnostic)
      ∈ (build cfgValidWs extFailingDeps).2.diagnostics :=
  (build_always_resolves_and_logs cfgValidWs extFailingDeps).2.2.2.2
    ⟨"Error: ENOENT", some "stack-trace"⟩ rfl

/-! ## Claim C9 -/

/-- C9: before validation runs, `build` unconditionally sets
`writeCompiledToDisk` to false on its config and connects the worker pool
with the configured worker count; hence a build whose config fails
validation has already connected the pool and had its config mutated, and
the pool is disconnected during finalize exactly when watch mode is off. -/
theorem build_prelude_and_disconnect (cfg : BuildConfig) (ext : Externals) :
    (build cfg ext).1.connectArg = some cfg.numWorkers
    ∧ (build cfg ext).1.configAfter.writeCompiledToDisk = false
    ∧ (build cfg ext).1.disconnectCalled = !cfg.isWatch := by
  refine ⟨rfl, ?_, rfl⟩
  show (runChain { cfg with writeCompiledToDisk := false } ext).cfgAfter.writeCompiledToDisk = false
  rw [runChain_cfgAfter_wctd]

/-! ## Claim C10 -/

/-- C10: `validateBuildConfig` mutates its argument on success — `bundles`
and `collections` are defaulted to empty lists exactly when absent, the
namespace is defaulted and trimmed so that it is never empty afterwards,
an absent namespace becomes `App`, and a whitespace-only namespace becomes
`bundles` (the second defaulting line overwrites the namespace again). -/
theorem validateBuildConfig_mutations (c c' : BuildConfig)
    (h : validateBuildConfig c = Except.ok c') :
    (c.bundles = none → c'.bundles = some [])
    ∧ (∀ l, c.bundles = some l → c'.bundles = some l)
    ∧ (c.collections = none → c'.collections = some [])
    ∧ (∀ l, c.collections = some l → c'.collections = some l)
    ∧ (c.«namespace» = none → c'.«namespace» = some "App")
    ∧ (∀ s, c.«namespace» = some s → s ≠ "" → jsTrim s = "" → c'.«namespace» = some "bundles")
    ∧ (∀ n, c'.«namespace» = some n → n ≠ "") := by
  have hc := validateBuildConfig_ok h
  subst hc
  refine ⟨?_, ?_, ?_, ?_, ?_, ?_, ?_⟩
  · intro hb; simp [hb]
  · intro l hb; simp [hb]
  · intro hco; simp [hco]
  · intro l hco; simp [hco]
  · intro hn
    simp only [hn]
    rfl
  · intro s hn hne htrim
    have h1 : jsOrStr (some s) "App" = s := by simp [jsOrStr, hne]
    simp only [hn, h1, htrim, if_pos]
    rfl
  · intro n hn'
    have hn2 : n = jsTrim (if jsTrim (jsOrStr c.«namespace» "App") = "" then "bundles"
        else jsTrim (jsOrStr c.«namespace» "App")) := (Option.some.inj hn').symm
    by_cases hz : jsTrim (jsOrStr c.«namespace» "App") = ""
    · rw [hn2, if_pos hz]
      decide
    · rw [hn2, if_neg hz]
      intro hcon
      have hy : trimChars (jsOrStr c.«namespace» "App").data ≠ [] :=
        fun hnil => hz (stringMk_eq_empty_iff.mpr hnil)
      exact trimChars_trimChars_ne_nil hy (stringMk_eq_empty_iff.mp hcon)

/-- Witness for C10: validating a concrete valid config with an absent
bundles list and a whitespace-only namespace yields the defaulted record
with namespace `bundles`, which is nonempty. -/
theorem validateBuildConfig_mutations_witness :
    validateBuildConfig cfgValidWs = Except.ok cfgValidRes
    ∧ cfgValidRes.bundles = some []
    ∧ cfgValidRes.«namespace» = some "bundles"
    ∧ "bundles" ≠ "" := by
  have hv : validateBuildConfig cfgValidWs = Except.ok cfgValidRes := rfl
  refine ⟨hv, ?_, ?_, ?_⟩
  · exact (validateBuildConfig_mutations cfgValidWs cfgValidRes hv).1 rfl
  · exact (validateBuildConfig_mutations cfgValidWs cfgValidRes hv).2.2.2.2.2.1 " " rfl
      (by decide) (by decide)
  · exact (validateBuildConfig_mutations cfgValidWs cfgValidRes hv).2.2.2.2.2.2 "bundles"
      ((validateBuildConfig_mutations cfgValidWs cfgValidRes hv).2.2.2.2.2.1 " " rfl
        (by decide) (by decide))

/-! ## Claim C4 -/

/-- C4 counterexample: two components referencing the same style path in
one emit lead to two style-compiler invocations for a single distinct
path, even though the path is recorded only once — the claim that the
style compiler is invoked at most once per distinct style file path is
false on the code. -/
theorem style_render_once_per_path_counterexample :
    (transpileFile sassOkStub "/www/build" ctxTwoCmps writesTwoCmps []).2.2.renderCalls =
      ["/src/cmp/shared.scss", "/src/cmp/shared.scss"]
    ∧ ((transpileFile sassOkStub "/www/build" ctxTwoCmps writesTwoCmps []).1).includedSassFiles =
        some ["/src/cmp/shared.scss"] := by
  exact ⟨rfl, rfl⟩

/-- C4 (amended): across one compile of a file, a style path appears at
most once in the recorded `includedSassFiles` set (every push is guarded
by an indexOf check), but the style compiler is invoked once per style
reference — a path referenced several times is rendered once per
reference, not once per distinct path. -/
theorem style_dedup_recorded_not_rendered :
    (∀ (f : String → SassRenderResult) (outDir : String)
      (ctx : List (String × ModuleFileMeta)) (writes : List WriteFileCall)
      (rds : List RawTsDiagnostic),
      (((transpileFile f outDir ctx writes rds).1).includedSassFiles.getD []).Nodup)
    ∧ (∀ (f : String → SassRenderResult) (d : String) (cr : CompileResults) (us : List String),
        (processStylesUrls f d cr us).2.renderCalls =
          us.map (fun u => pathJoin d (pathBasename u))) := by
  constructor
  · intro f outDir ctx writes rds
    unfold transpileFile
    simp only
    exact runWrites_nodup f outDir writes ctx _ emptyStyleTrace (by simp)
  · intro f d cr us
    exact processStylesUrls_renderCalls f d us cr

/-! ## Claim C5 -/

/-- C5 counterexample: a style URL with a subdirectory segment is not
resolved to that subdirectory under the owning file's directory — the
code takes the basename first, so `sub/foo.scss` owned by `/src/cmp`
is compiled as `/src/cmp/foo.scss`, not `/src/cmp/sub/foo.scss`. -/
theorem style_subdir_resolution_counterexample :
    (processIncludedStyles sassOkStub "/www/build" mfSubdir crEmpty).2.renderCalls =
      ["/src/cmp/foo.scss"]
    ∧ ("/src/cmp/foo.scss" : String) ≠ "/src/cmp/sub/foo.scss" := by
  exact ⟨rfl, by decide⟩

/-- C5 (amended): for every style URL declared in a component's metadata,
the path passed to the style compiler is the basename of the referenced
URL joined to the owning source file's directory — any subdirectory
segments in the style URL are discarded by the basename step. -/
theorem style_path_resolution (f : String → SassRenderResult) (outDir : String)
    (mf : ModuleFileMeta) (cr : CompileResults) (cmp : CmpMeta)
    (modes : List (String × StyleModeMeta))
    (hts : mf.isTsSourceFile = true) (hcm : mf.cmpMeta = some cmp)
    (hsm : cmp.styleMeta = some modes) :
    (processIncludedStyles f outDir mf cr).2.renderCalls =
      (styleUrlsOfModes modes).map (fun u => pathJoin mf.srcDir (pathBasename u)) := by
  unfold processIncludedStyles
  rw [hts, hcm]
  simp only [hsm]
  exact processStylesUrls_renderCalls f mf.srcDir _ _

/-- Witness for C5: the subdirectory-style component compiles exactly the
basename-joined path. -/
theorem style_path_resolution_witness :
    (processIncludedStyles sassOkStub "/www/build" mfSubdir crEmpty).2.renderCalls =
      (styleUrlsOfModes [("default", { styleUrls := some ["sub/foo.scss"] })]).map
        (fun u => pathJoin mfSubdir.srcDir (pathBasename u)) :=
  style_path_resolution sassOkStub "/www/build" mfSubdir crEmpty
    { styleMeta := some [("default", { styleUrls := some ["sub/foo.scss"] })] }
    [("default", { styleUrls := some ["sub/foo.scss"] })] rfl rfl rfl

/-! ## Claim C6 -/

/-- C6 counterexample: when the style reference of a component fails to
compile, no diagnostic is recorded in the compile results — the failure
only reaches the logger's error channel — so the claim that the error
yields a StyleCompileError diagnostic is false on the code (the script
output is nevertheless present). -/
theorem style_error_diagnostic_counterexample :
    ((transpileFile sassFailStub "/www/build" ctxStyled writesStyled []).1).diagnostics = some []
    ∧ ("error", "sass.render, getIncludedSassFiles, ENOENT: no such file")
        ∈ (transpileFile sassFailStub "/www/build" ctxStyled writesStyled []).2.2.logs
    ∧ ((transpileFile sassFailStub "/www/build" ctxStyled writesStyled []).1).jsFiles =
        [("/www/build/a.js", "var a;")] := by
  refine ⟨rfl, by decide, rfl⟩

/-- C6 (amended): a failing style reference does not abort the file's
compilation — every emitted script output is still present in the compile
results' jsFiles, the diagnostics of the compile results are exactly the
mapped emit diagnostics (the style failure contributes no diagnostic), and
each failing style path has its error logged through the logger's error
channel. -/
theorem style_error_recovery (f : String → SassRenderResult) (outDir : String)
    (ctx : List (String × ModuleFileMeta)) (writes : List WriteFileCall)
    (rds : List RawTsDiagnostic) :
    (∀ c ∈ writes, ∃ t, (c.jsFilePath, t) ∈
      ((transpileFile f outDir ctx writes rds).1).jsFiles)
    ∧ ((transpileFile f outDir ctx writes rds).1).diagnostics = some (rds.map toTDiagnostic)
    ∧ ∀ p m, p ∈ (transpileFile f outDir ctx writes rds).2.2.renderCalls →
        f p = SassRenderResult.err m →
        ("error", "sass.render, getIncludedSassFiles, " ++ m)
          ∈ (transpileFile f outDir ctx writes rds).2.2.logs := by
  refine ⟨?_, rfl, ?_⟩
  · intro c hc
    unfold transpileFile
    simp only
    exact runWrites_mem f outDir writes ctx _ emptyStyleTrace c hc
  · intro p m
    unfold transpileFile
    simp only
    exact errLogged_runWrites f outDir writes ctx _ emptyStyleTrace (errLogged_empty f) p m

/-- Witness for C6: with a failing sass compiler, the concrete styled
component's failure is logged while its diagnostics stay exactly the
mapped (empty) emit diagnostics. -/
theorem style_error_recovery_witness :
    ("error", "sass.render, getIncludedSassFiles, ENOENT: no such file")
      ∈ (transpileFile sassFailStub "/www/build" ctxStyled writesStyled []).2.2.logs
    ∧ ((transpileFile sassFailStub "/www/build" ctxStyled writesStyled []).1).diagnostics =
        some [] := by
  refine ⟨?_, ?_⟩
  · exact (style_error_recovery sassFailStub "/www/build" ctxStyled writesStyled []).2.2
      "/src/cmp/shared.scss" "ENOENT: no such file" (by decide) rfl
  · exact ((style_error_recovery sassFailStub "/www/build" ctxStyled writesStyled []).2.1).trans
      rfl

/-! ## Claim C8 -/

/-- C8: the transform passes are applied in two groups in a fixed order —
the structural passes (component-class extraction, import removal,
lifecycle-method normalization) run before type-checked emission in that
sequence, the template-to-render-call rewrite (jsxToVNode) runs after
emission, and no pass appears in both groups. -/
theorem transpile_pass_grouping :
    emitTransformers.before = [TransformPass.componentClass, TransformPass.removeImports,
      TransformPass.updateLifecycleMethods]
    ∧ emitTransformers.after = [TransformPass.jsxToVNode]
    ∧ emitTransformers.before.inter emitTransformers.after = [] := by
  exact ⟨rfl, rfl, by decide⟩

/-! ## Claim C2 -/

/-- C2 counterexample: state-property extraction is neither idempotent nor
independent of declaration order.  Re-running the extraction on its own
output yields the empty list, because the marker was removed from the
output; and two properties whose names differ only in case are returned in
declaration order (the comparator ties them), so permuting the members
changes the result. -/
theorem state_extraction_counterexample :
    (getStateDecoratorMeta ((getStateDecoratorMeta [memberCount]).2)).1 ≠
      (getStateDecoratorMeta [memberCount]).1
    ∧ (getStateDecoratorMeta [memberUpperA, memberLowerA]).1 ≠
        (getStateDecoratorMeta [memberLowerA, memberUpperA]).1 := by
  exact ⟨by decide, by decide⟩

/-- C2 (amended): state-property extraction sorts the collected names with
the case-insensitive comparator, records at most one name per member (a
member marked twice is recorded once), and is independent of declaration
order whenever no two collected names coincide case-insensitively; it is
not idempotent — running it a second time on its own output yields the
empty list, because the first run strips the markers. -/
theorem state_extraction_props (ms₁ ms₂ : List StateMember)
    (hperm : ms₁.Perm ms₂)
    (hdist : (collectedStateNames ms₁).Pairwise (fun a b => lowerKey a ≠ lowerKey b)) :
    List.Sorted ciLe (getStateDecoratorMeta ms₁).1
    ∧ (getStateDecoratorMeta ms₁).1.length ≤ ms₁.length
    ∧ (getStateDecoratorMeta ((getStateDecoratorMeta ms₁).2)).1 = []
    ∧ (getStateDecoratorMeta ms₁).1 = (getStateDecoratorMeta ms₂).1
    ∧ (getStateDecoratorMeta [memberTwiceMarked]).1 = ["a"] := by
  refine ⟨List.sorted_insertionSort ciLe _, ?_, ?_, ?_, by decide⟩
  · calc (List.insertionSort ciLe (collectedStateNames ms₁)).length
        = (collectedStateNames ms₁).length :=
          (List.perm_insertionSort ciLe (collectedStateNames ms₁)).length_eq
      _ ≤ (ms₁.map extractMember).length := List.length_filterMap_le _ _
      _ = ms₁.length := List.length_map _ _
  · have hall : ∀ m' ∈ (getStateDecoratorMeta ms₁).2, (extractMember m').1 = none := by
      intro m' hm'
      simp only [getStateDecoratorMeta, List.map_map, List.mem_map] at hm'
      obtain ⟨m, _, hm⟩ := hm'
      rw [← hm]
      exact extractMember_second m
    have hnil : collectedStateNames ((getStateDecoratorMeta ms₁).2) = [] := by
      unfold collectedStateNames
      rw [List.filterMap_eq_nil_iff]
      intro r hr
      obtain ⟨m', hm', hr'⟩ := List.mem_map.mp hr
      rw [← hr']
      exact hall m' hm'
    simp only [getStateDecoratorMeta]
    rw [show collectedStateNames ((List.insertionSort ciLe (collectedStateNames ms₁),
      (ms₁.map extractMember).map (fun r => r.2)).2) = [] from hnil]
    rfl
  · have hnames : (collectedStateNames ms₁).Perm (collectedStateNames ms₂) := by
      unfold collectedStateNames
      exact (hperm.map extractMember).filterMap (fun r => r.1)
    have hsort₁ : List.Sorted ciLe (List.insertionSort ciLe (collectedStateNames ms₁)) :=
      List.sorted_insertionSort ciLe _
    have hsort₂ : List.Sorted ciLe (List.insertionSort ciLe (collectedStateNames ms₂)) :=
      List.sorted_insertionSort ciLe _
    have hperm' : (List.insertionSort ciLe (collectedStateNames ms₁)).Perm
        (List.insertionSort ciLe (collectedStateNames ms₂)) :=
      ((List.perm_insertionSort ciLe _).trans hnames).trans
        (List.perm_insertionSort ciLe _).symm
    have hsymm : ∀ {x y : String}, lowerKey x ≠ lowerKey y → lowerKey y ≠ lowerKey x :=
      fun h => fun he => h he.symm
    have hdist₁ : (List.insertionSort ciLe (collectedStateNames ms₁)).Pairwise
        (fun a b => lowerKey a ≠ lowerKey b) :=
      ((List.perm_insertionSort ciLe _).pairwise_iff hsymm).mpr hdist
    have hdist₂ : (List.insertionSort ciLe (collectedStateNames ms₂)).Pairwise
        (fun a b => lowerKey a ≠ lowerKey b) :=
      ((List.perm_insertionSort ciLe _).pairwise_iff hsymm).mpr
        ((hnames.pairwise_iff hsymm).mp hdist)
    have hstrict : ∀ {a b : String}, ciLe a b ∧ lowerKey a ≠ lowerKey b →
        (charListLt (lowerKey a) (lowerKey b) = true ∨ a = b) := by
      intro a b ⟨hle, hne⟩
      rcases hlt : charListLt (lowerKey a) (lowerKey b) with _ | _
      · exact absurd (charListLt_false_false_eq hlt hle) hne
      · exact Or.inl rfl
    have hs₁ : (List.insertionSort ciLe (collectedStateNames ms₁)).Pairwise
        (fun a b => charListLt (lowerKey a) (lowerKey b) = true ∨ a = b) :=
      (hsort₁.and hdist₁).imp hstrict
    have hs₂ : (List.insertionSort ciLe (collectedStateNames ms₂)).Pairwise
        (fun a b => charListLt (lowerKey a) (lowerKey b) = true ∨ a = b) :=
      (hsort₂.and hdist₂).imp hstrict
    haveI : IsAntisymm String (fun a b => charListLt (lowerKey a) (lowerKey b) = true ∨ a = b) :=
      ⟨by
        intro a b h1 h2
        rcases h1 with h1 | h1
        · rcases h2 with h2 | h2
          · exact absurd h2 (by rw [charListLt_asymm h1]; simp)
          · exact h2.symm
        · exact h1⟩
    exact List.eq_of_perm_of_sorted hperm' hs₁ hs₂

/-- Witness for C2: the spec's own example — the two members declaring `a`
and `B` — extracts to the same list in either declaration order, and a
twice-marked member is recorded once. -/
theorem state_extraction_props_witness :
    (getStateDecoratorMeta [memberLowerA, memberUpperB]).1 =
      (getStateDecoratorMeta [memberUpperB, memberLowerA]).1
    ∧ (getStateDecoratorMeta [memberTwiceMarked]).1 = ["a"] := by
  have h := state_extraction_props [memberLowerA, memberUpperB] [memberUpperB, memberLowerA]
    (by decide) (by decide)
  exact ⟨h.2.2.2.1, h.2.2.2.2⟩

/-! ## Claim C7 -/

/-- C7: a decorated class member is recognized as a state property exactly
when one of its decorators satisfies the predicate — the decorator
expression's first token's text is `State`, or the expression has no first
token and its whole text is `State` —; the recorded property name is the
next identifier token following the decorators (none is recorded when no
identifier follows); and both the call-style and the bare marker forms are
recognized.  The hypotheses state well-formedness of the member's syntax
tree: every decorator node has its `@` token and expression as children,
and decorators appear only in the decorator list. -/
theorem state_decorator_recognition (m : StateMember) (ds : List DecoratorNode)
    (hds : m.decorators = some ds) (hne : ds ≠ [])
    (hcc : ∀ d ∈ ds, 1 < d.childCount)
    (hrest : ∀ c ∈ m.rest, isDecChild c = false) :
    ((∃ d ∈ ds, isStateDecorator d) → (extractMember m).1 = firstIdentText m.rest)
    ∧ ((¬ ∃ d ∈ ds, isStateDecorator d) → (extractMember m).1 = none)
    ∧ (extractMember (⟨some [stateDecCall], [MemberChild.ident "x"]⟩ : StateMember)).1 = some "x"
    ∧ (extractMember (⟨some [stateDecBare], [MemberChild.ident "x"]⟩ : StateMember)).1 = some "x" := by
  have hdec : isDecorated m = true := by
    simp [isDecorated, hds, hne]
  have hchildren : memberChildren m = ds.map decChild ++ m.rest := by
    simp [memberChildren, hds]
  obtain ⟨hpn, hb⟩ := scan_decs ds false none hcc
  refine ⟨?_, ?_, by decide, by decide⟩
  · intro hex
    have hb1 : ((ds.map decChild).foldl scanStep (false, none)).1 = true :=
      hb.mpr (Or.inr hex)
    have hst : (ds.map decChild).foldl scanStep (false, none) = (true, none) := by
      rcases hq : (ds.map decChild).foldl scanStep (false, none) with ⟨b, pn⟩
      rw [hq] at hb1 hpn
      simp only at hb1 hpn
      rw [hb1, hpn]
    unfold extractMember
    rw [if_pos hdec, hchildren, List.foldl_append, hst, scan_rest_none m.rest hrest]
    rcases hfi : firstIdentText m.rest with _ | p <;> simp
  · intro hex
    have hb1 : ((ds.map decChild).foldl scanStep (false, none)).1 = false := by
      rcases hq : ((ds.map decChild).foldl scanStep (false, none)).1 with _ | _
      · rfl
      · exact absurd ((hb.mp hq).resolve_left (by simp)) hex
    have hst : (ds.map decChild).foldl scanStep (false, none) = (false, none) := by
      rcases hq : (ds.map decChild).foldl scanStep (false, none) with ⟨b, pn⟩
      rw [hq] at hb1 hpn
      simp only at hb1 hpn
      rw [hb1, hpn]
    unfold extractMember
    rw [if_pos hdec, hchildren, List.foldl_append, hst, scan_rest_false m.rest hrest]

/-- Witness for C7: a member with a call-style `State()` decorator
followed by another child and the identifier `count` is recognized with
property name `count`. -/
theorem state_decorator_recognition_witness :
    (extractMember (⟨some [stateDecCall],
      [MemberChild.other, MemberChild.ident "count"]⟩ : StateMember)).1 = some "count" := by
  have h := state_decorator_recognition
    ⟨some [stateDecCall], [MemberChild.other, MemberChild.ident "count"]⟩
    [stateDecCall] rfl (by decide) (by decide) (by decide)
  exact (h.1 ⟨stateDecCall, by decide⟩).trans rfl

end Stencil
